import Mathlib

set_option maxRecDepth 100000

/-!
Shallow embedding of the MINI-HOUSE-BUILD core service code
(`isRateLimitError`, `callApiWithRetry`, `runPromisesInBatches`,
`generateAssetsFromDescription`, `generateHouseDesign`, `editHouseDesign`
from the Gemini service module), together with theorems settling the
spec claims about it.

Modelling conventions:
* JavaScript thrown values are `JsValue`: either an `Error` instance
  carrying a message, or any other value (`nonError`) carrying opaque
  content.
* An asynchronous operation handed to the retry wrapper is a function
  `Nat → Except JsValue T` giving the outcome of its n-th invocation
  (0-based); `Math.random() * 1000` jitter is an arbitrary function
  `Nat → ℚ`, constrained to `[0, 1000)` in theorem hypotheses.
* A deferred operation handed to the batch runner is a `DeferredOp`:
  its eventual outcome plus a completion time, so that order-independence
  from completion timing is expressible.  `Promise.all` resolves with
  results in input order and rejects with the time-earliest rejection.
* `JSON.parse` is modelled by an executable recursive-descent parser
  `jsonParse` over a `Json` value type; a parse failure is `none`
  (the thrown `SyntaxError`).
* String helpers (`trim`, `toLowerCase`, `includes`) are re-implemented
  over the character list so that all definitions reduce in the kernel.
-/

/-- JS `String.prototype.toLowerCase` (ASCII case fold suffices here). -/
def jsToLower (s : String) : String := String.mk (s.data.map Char.toLower)

/-- JS `String.prototype.trim`: strip whitespace from both ends. -/
def jsTrim (s : String) : String :=
  String.mk (((s.data.dropWhile Char.isWhitespace).reverse.dropWhile
    Char.isWhitespace).reverse)

/-- Does `pat` occur as a contiguous sublist of `s`? -/
def listContainsSub (pat s : List Char) : Bool :=
  (List.range (s.length + 1)).any fun i => pat.isPrefixOf (s.drop i)

/-- JS `String.prototype.includes`. -/
def strIncludes (s pat : String) : Bool := listContainsSub pat.data s.data

/-- A JavaScript thrown value: an `Error` instance with a message, or
any other value (string, number, plain object …) with opaque content. -/
inductive JsValue where
  | error (message : String)
  | nonError (content : String)
deriving DecidableEq, Repr

/-- `isRateLimitError` from the service module: an `Error` whose
lower-cased message contains `"quota"`, `"rate limit"` or `"429"`;
any non-`Error` value is never classified as rate-limited. -/
def isRateLimitError : JsValue → Bool
  | JsValue.error msg =>
      let message := jsToLower msg
      strIncludes message "quota" || strIncludes message "rate limit" ||
        strIncludes message "429"
  | JsValue.nonError _ => false

/-- Observable outcome of one `callApiWithRetry` run: the value returned
or the value thrown, the total number of `apiCall()` invocations, and the
back-off delays (in ms) slept between consecutive invocations. -/
structure RetryTrace (T : Type) where
  result : Except JsValue T
  attempts : Nat
  delays : List ℚ
deriving Repr

/-- The `while (true)` loop of `callApiWithRetry`.  `attempt` is the
mutable counter (number of failures so far), `fuel` bounds the recursion:
whenever the loop continues, `attempt + 1 < maxRetries`, so a start fuel
of `maxRetries` is never exhausted (the zero-fuel branch is unreachable
from `callApiWithRetry`). -/
def callApiLoop {T : Type} (apiCall : Nat → Except JsValue T)
    (jitter : Nat → ℚ) (initialDelay : ℚ) (maxRetries : Nat) :
    Nat → Nat → RetryTrace T
  | fuel, attempt =>
    match apiCall attempt with
    | Except.ok v => ⟨Except.ok v, attempt + 1, []⟩
    | Except.error e =>
      let a := attempt + 1
      if decide (a ≥ maxRetries) || !isRateLimitError e then
        ⟨Except.error e, a, []⟩
      else
        match fuel with
        | 0 => ⟨Except.error e, a, []⟩
        | fuel' + 1 =>
          let delay := initialDelay * 2 ^ (a - 1) + jitter a
          let t := callApiLoop apiCall jitter initialDelay maxRetries fuel' a
          ⟨t.result, t.attempts, delay :: t.delays⟩

/-- `callApiWithRetry(apiCall, maxRetries, initialDelay)`: run the loop
from `attempt = 0`.  The source defaults are `maxRetries = 3`,
`initialDelay = 1000`. -/
def callApiWithRetry {T : Type} (apiCall : Nat → Except JsValue T)
    (jitter : Nat → ℚ) (maxRetries : Nat) (initialDelay : ℚ) :
    RetryTrace T :=
  callApiLoop apiCall jitter initialDelay maxRetries maxRetries 0

example :
    (callApiWithRetry (fun _ => Except.ok 7) (fun _ => 5) 3 1000).result =
      Except.ok 7 := rfl

example :
    (callApiWithRetry
      (fun n => if n < 2 then Except.error (JsValue.error "429 too many")
                else Except.ok 7)
      (fun _ => 5) 3 1000).attempts = 3 := rfl

example :
    (callApiWithRetry
      (fun _ => (Except.error (JsValue.error "boom") : Except JsValue Nat))
      (fun _ => 5) 3 1000).attempts = 1 := rfl

example :
    (callApiWithRetry
      (fun _ => (Except.error (JsValue.error "boom") : Except JsValue Nat))
      (fun _ => 5) 3 1000).delays = [] := rfl

/-- A deferred operation (a "promise factory" already applied): its
eventual outcome and its completion time, the latter irrelevant to the
value semantics but needed to state timing-independence. -/
structure DeferredOp (E T : Type) where
  time : Nat
  result : Except E T
deriving Repr

/-- Among the operations of one chunk, the rejection that settles first
(earliest `time`; ties broken towards the earlier list position), paired
with its time — this is the rejection `Promise.all` adopts. -/
def firstRejection {E T : Type} : List (DeferredOp E T) → Option (Nat × E)
  | [] => none
  | op :: rest =>
    match op.result, firstRejection rest with
    | Except.error e, some (t, e') =>
        if op.time ≤ t then some (op.time, e) else some (t, e')
    | Except.error e, none => some (op.time, e)
    | Except.ok _, r => r

/-- JS `Promise.all`: resolves with the results in input order when every
operation succeeds, otherwise rejects with the first rejection. -/
def promiseAll {E T : Type} (ops : List (DeferredOp E T)) :
    Except E (List T) :=
  match firstRejection ops with
  | some (_, e) => Except.error e
  | none => Except.ok (ops.filterMap fun op => op.result.toOption)

/-- The `for` loop of `runPromisesInBatches`: slice off a chunk of
`batchSize` operations, start them all (`map factory => factory()`),
await `Promise.all`, append, continue.  Returns the overall outcome and
the number of operations started.  `fuel` bounds the recursion: one unit
per chunk, so `ops.length` units suffice whenever `batchSize ≥ 1`
(for `batchSize = 0` the JS loop never terminates; the zero-fuel branch
is unreachable under the claims, which all assume `batchSize ≥ 1`). -/
def runBatchedLoop {E T : Type} (batchSize : Nat) :
    Nat → List (DeferredOp E T) → Except E (List T) × Nat
  | _, [] => (Except.ok [], 0)
  | 0, _ :: _ => (Except.ok [], 0)
  | fuel + 1, op :: rest =>
    let chunk := (op :: rest).take batchSize
    let later := (op :: rest).drop batchSize
    match promiseAll chunk with
    | Except.error e => (Except.error e, chunk.length)
    | Except.ok vs =>
      let r := runBatchedLoop batchSize fuel later
      (r.1.map fun ws => vs ++ ws, chunk.length + r.2)

/-- `runPromisesInBatches(promiseFactories, batchSize)`: outcome plus the
number of factories invoked. -/
def runPromisesInBatches {E T : Type} (ops : List (DeferredOp E T))
    (batchSize : Nat) : Except E (List T) × Nat :=
  runBatchedLoop batchSize ops.length ops

example :
    (runPromisesInBatches
      [(⟨9, Except.ok 1⟩ : DeferredOp String Nat), ⟨0, Except.ok 2⟩,
        ⟨4, Except.ok 3⟩, ⟨2, Except.ok 4⟩] 3).1 =
      Except.ok [1, 2, 3, 4] := rfl

example :
    runPromisesInBatches
      [(⟨9, Except.ok 1⟩ : DeferredOp String Nat), ⟨0, Except.error "x"⟩,
        ⟨4, Except.ok 3⟩, ⟨2, Except.ok 4⟩] 3 =
      (Except.error "x", 3) := rfl

example :
    runPromisesInBatches
      [(⟨9, Except.ok 1⟩ : DeferredOp String Nat), ⟨0, Except.ok 2⟩,
        ⟨4, Except.ok 3⟩, ⟨2, Except.error "y"⟩] 3 =
      (Except.error "y", 4) := rfl

/-- A parsed JSON value.  A number literal is kept exactly as
`mantissa / 10 ^ scale` (sign on the mantissa), which represents every
JSON numeral without rounding. -/
inductive Json where
  | null
  | bool (b : Bool)
  | num (mantissa : Int) (scale : Nat)
  | str (s : String)
  | arr (items : List Json)
  | obj (fields : List (String × Json))
deriving Repr

/-- The `\x7b` character, kept out of character-literal syntax. -/
def lbrace : Char := Char.ofNat 123

/-- The `\x7d` character, kept out of character-literal syntax. -/
def rbrace : Char := Char.ofNat 125

/-- JSON insignificant whitespace: space, tab, line feed, carriage
return. -/
def skipWs : List Char → List Char
  | c :: cs =>
      if c = ' ' || c = '\t' || c = '\n' || c = '\r' then skipWs cs
      else c :: cs
  | [] => []

/-- ASCII decimal digit test. -/
def isDigitChar (c : Char) : Bool := '0' ≤ c && c ≤ '9'

/-- Value of an ASCII decimal digit. -/
def digitVal (c : Char) : Nat := c.toNat - '0'.toNat

/-- Split off the maximal leading run of decimal digits. -/
def takeDigits : List Char → List Char × List Char
  | c :: cs =>
      if isDigitChar c then
        let p := takeDigits cs
        (c :: p.1, p.2)
      else ([], c :: cs)
  | [] => ([], [])

/-- Read a digit run as a natural number, most significant first. -/
def digitsToNat (acc : Nat) : List Char → Nat
  | [] => acc
  | c :: cs => digitsToNat (acc * 10 + digitVal c) cs

/-- Value of an ASCII hexadecimal digit, if it is one (code points:
digits 48–57, lowercase 97–102, uppercase 65–70). -/
def hexVal (c : Char) : Option Nat :=
  let n := c.toNat
  if 48 ≤ n && n ≤ 57 then some (n - 48)
  else if 97 ≤ n && n ≤ 102 then some (n - 87)
  else if 65 ≤ n && n ≤ 70 then some (n - 55)
  else none

/-- Match a literal suffix (rest of `true` / `false` / `null`). -/
def stripLit : List Char → List Char → Option (List Char)
  | [], s => some s
  | l :: ls, c :: cs => if c = l then stripLit ls cs else none
  | _ :: _, [] => none

/-- Body of a JSON string, after the opening quote: characters until the
closing quote, decoding the escape sequences. -/
def parseStringBody : Nat → List Char → Option (List Char × List Char)
  | 0, _ => none
  | _ + 1, [] => none
  | fuel + 1, c :: cs =>
    if c = '"' then some ([], cs)
    else if c = '\\' then
      match cs with
      | [] => none
      | e :: cs' =>
        let esc : Option (Char × List Char) :=
          if e = '"' then some ('"', cs')
          else if e = '\\' then some ('\\', cs')
          else if e = '/' then some ('/', cs')
          else if e = 'b' then some (Char.ofNat 8, cs')
          else if e = 'f' then some (Char.ofNat 12, cs')
          else if e = 'n' then some ('\n', cs')
          else if e = 'r' then some ('\r', cs')
          else if e = 't' then some ('\t', cs')
          else if e = 'u' then
            match cs' with
            | h1 :: h2 :: h3 :: h4 :: cs'' =>
              match hexVal h1, hexVal h2, hexVal h3, hexVal h4 with
              | some v1, some v2, some v3, some v4 =>
                  some (Char.ofNat (((v1 * 16 + v2) * 16 + v3) * 16 + v4),
                    cs'')
              | _, _, _, _ => none
            | _ => none
          else none
        match esc with
        | none => none
        | some (ch, rest) =>
          match parseStringBody fuel rest with
          | none => none
          | some p => some (ch :: p.1, p.2)
    else if c.toNat < 32 then none
    else
      match parseStringBody fuel cs with
      | none => none
      | some p => some (c :: p.1, p.2)

/-- Optional fraction part `.digits` of a JSON numeral. -/
def parseFrac : List Char → Option (List Char × List Char)
  | '.' :: cs =>
    let p := takeDigits cs
    if p.1 = [] then none else some p
  | s => some ([], s)

/-- Optional exponent part `[eE][+-]?digits`: (negated?, magnitude,
rest). -/
def parseExp : List Char → Option (Bool × Nat × List Char)
  | c :: cs =>
    if c = 'e' || c = 'E' then
      let signed : Bool × List Char :=
        match cs with
        | '+' :: r => (false, r)
        | '-' :: r => (true, r)
        | r => (false, r)
      let p := takeDigits signed.2
      if p.1 = [] then none
      else some (signed.1, digitsToNat 0 p.1, p.2)
    else some (false, 0, c :: cs)
  | [] => some (false, 0, [])

/-- A JSON numeral `-?int(.digits)?([eE][+-]?digits)?`, with the JSON
rule that the integer part has no leading zero. -/
def parseNumber (s : List Char) : Option (Json × List Char) :=
  let signed : Bool × List Char :=
    match s with
    | '-' :: cs => (true, cs)
    | _ => (false, s)
  let p := takeDigits signed.2
  match p.1 with
  | [] => none
  | d0 :: drest =>
    if d0 = '0' && drest ≠ [] then none
    else
      match parseFrac p.2 with
      | none => none
      | some (fs, s3) =>
        match parseExp s3 with
        | none => none
        | some (esgn, emag, s4) =>
          let mant : Nat := digitsToNat 0 (p.1 ++ fs)
          let mant2 : Nat := if esgn then mant else mant * 10 ^ emag
          let scale : Nat := if esgn then fs.length + emag else fs.length
          let m : Int := if signed.1 then -(mant2 : Int) else (mant2 : Int)
          some (Json.num m scale, s4)

/-- Parser mode: what the next stretch of input is expected to be.
`members` and `items` carry the container contents accumulated so far. -/
inductive PMode where
  | value
  | objBody
  | arrBody
  | members (acc : List (String × Json))
  | items (acc : List Json)

/-- The recursive heart of the JSON grammar, one structural recursion on
`fuel` (so that it reduces in the kernel).  `value` parses one JSON
value, leading whitespace allowed; `objBody` / `arrBody` start right
after the opening bracket and its whitespace; `members` / `items` parse
the comma-separated tail of a non-empty container.  The top-level entry
point supplies fuel exceeding what any accepted input consumes. -/
def parseCore : Nat → PMode → List Char → Option (Json × List Char)
  | 0, _, _ => none
  | fuel + 1, PMode.value, s =>
    match skipWs s with
    | [] => none
    | c :: cs =>
      if c = '"' then
        match parseStringBody (cs.length + 1) cs with
        | none => none
        | some p => some (Json.str (String.mk p.1), p.2)
      else if c = lbrace then parseCore fuel PMode.objBody (skipWs cs)
      else if c = '[' then parseCore fuel PMode.arrBody (skipWs cs)
      else if c = 't' then
        match stripLit ['r', 'u', 'e'] cs with
        | none => none
        | some r => some (Json.bool true, r)
      else if c = 'f' then
        match stripLit ['a', 'l', 's', 'e'] cs with
        | none => none
        | some r => some (Json.bool false, r)
      else if c = 'n' then
        match stripLit ['u', 'l', 'l'] cs with
        | none => none
        | some r => some (Json.null, r)
      else parseNumber (c :: cs)
  | fuel + 1, PMode.objBody, s =>
    match s with
    | [] => none
    | c :: cs =>
      if c = rbrace then some (Json.obj [], cs)
      else parseCore fuel (PMode.members []) (c :: cs)
  | fuel + 1, PMode.arrBody, s =>
    match s with
    | [] => none
    | c :: cs =>
      if c = ']' then some (Json.arr [], cs)
      else parseCore fuel (PMode.items []) (c :: cs)
  | fuel + 1, PMode.members acc, s =>
    match s with
    | '"' :: cs =>
      match parseStringBody (cs.length + 1) cs with
      | none => none
      | some (key, r1) =>
        match skipWs r1 with
        | ':' :: r2 =>
          match parseCore fuel PMode.value r2 with
          | none => none
          | some (v, r3) =>
            match skipWs r3 with
            | ',' :: r4 =>
                parseCore fuel
                  (PMode.members (acc ++ [(String.mk key, v)])) (skipWs r4)
            | c :: r4 =>
                if c = rbrace then
                  some (Json.obj (acc ++ [(String.mk key, v)]), r4)
                else none
            | [] => none
        | _ => none
    | _ => none
  | fuel + 1, PMode.items acc, s =>
    match parseCore fuel PMode.value s with
    | none => none
    | some (v, r1) =>
      match skipWs r1 with
      | ',' :: r2 => parseCore fuel (PMode.items (acc ++ [v])) r2
      | c :: r2 => if c = ']' then some (Json.arr (acc ++ [v]), r2) else none
      | [] => none

/-- `JSON.parse`: parse one value and require the remainder to be
whitespace only; `none` models the thrown `SyntaxError`. -/
def jsonParse (s : String) : Option Json :=
  match parseCore (2 * s.length + 4) PMode.value s.data with
  | none => none
  | some (v, rest) => if skipWs rest = [] then some v else none

/-- `Material` / `CuttingList` field names exist only through the JSON
payload in the code (the cast is unchecked), so the parsed cutting list
is carried as raw `Json`.  `ImageView` is the displayable record built
by the orchestrator. -/
structure ImageView where
  label : String
  url : String
deriving Repr, DecidableEq

/-- `EditPreferences` from the types module: four free-text fields. -/
structure EditPreferences where
  primaryColor : String
  secondaryColor : String
  roofMaterial : String
  featureHighlights : String
deriving Repr, DecidableEq

/-- The fixed `VIEWS` constant. -/
def VIEWS : List String :=
  ["Front view", "Back view", "Left side view", "Right side view",
    "Top-down view"]

/-- The tagged image-generation result (`ViewImageResult` /
`SketchImageResult`); `base64` is `none` when the call yielded no
image bytes. -/
inductive ImageResult where
  | view (label : String) (base64 : Option String)
  | sketch (base64 : Option String)
deriving Repr, DecidableEq

/-- The prompt sent to `generateImages` for one viewpoint. -/
def viewPrompt (detailedDescription view : String) : String :=
  "A photorealistic 3D architectural render of a miniature dollhouse for kids. The design is based on this detailed description: \"" ++
    detailedDescription ++ "\". Show the " ++ view ++
    " of the house. The style is cute, playful, and looks like a real, buildable model. White background."

/-- The prompt sent to `generateImages` for the blueprint sketch. -/
def sketchPrompt (detailedDescription : String) : String :=
  "A simple black and white blueprint-style line drawing of the miniature house based on this detailed description: \"" ++
    detailedDescription ++
    "\". The sketch must include clear, simple measurement labels for key parts like walls, roof, door, and windows. The style should be a clean, technical drawing on a white background."

/-- The `contents` of the structured cutting-list call. -/
def cuttingContents (detailedDescription : String) : String :=
  "Based on the following detailed description, create a simple cutting list for a miniature house that a child could build with adult help. Description: \"" ++
    detailedDescription ++ "\""

/-- The `contents` of the description-generation call in
`generateHouseDesign`. -/
def descriptionContents (prompt : String) : String :=
  "Based on the user's idea, create a detailed and consistent architectural description for a miniature house. This description will be used to generate multiple 3D views, so it must be very specific about colors, shapes, materials, windows, doors, and unique features. User's idea: \"" ++
    prompt ++ "\""

/-- The edit instruction built at the top of `editHouseDesign`: the
original description restated, then one `- Change …` line per truthy
(non-empty, *not* trimmed) `EditPreferences` field, in source order. -/
def buildEditPrompt (originalDescription : String)
    (edits : EditPreferences) : String :=
  let p0 :=
    "Based on this original house description, please generate a new, complete architectural description that incorporates the following changes. Do not just list the changes, provide the full, updated description.\n\n" ++
    "Original Description: \"" ++ originalDescription ++ "\"\n\n" ++
    "Requested Changes:\n"
  let p1 := if edits.primaryColor ≠ "" then
      p0 ++ "- Change the primary color to " ++ edits.primaryColor ++ ".\n"
    else p0
  let p2 := if edits.secondaryColor ≠ "" then
      p1 ++ "- Change the secondary color to " ++ edits.secondaryColor ++ ".\n"
    else p1
  let p3 := if edits.roofMaterial ≠ "" then
      p2 ++ "- Change the roof to be made of or look like " ++
        edits.roofMaterial ++ ".\n"
    else p2
  if edits.featureHighlights ≠ "" then
    p3 ++ "- Also, incorporate this request: " ++ edits.featureHighlights ++
      ".\n"
  else p3

/-- The external generative-AI service plus the ambient randomness, as
one environment: for each image prompt, the completion time of the call
and the `imageBytes` of its first generated image (`none` models the
`?? null` fallback); for each text prompt, the response `text`; and the
jitter stream used by the retry wrapper.  All remote calls in this
environment succeed (the failure-propagation claims are settled on the
retry wrapper and batch runner directly). -/
structure GenAiEnv where
  imageTime : String → Nat
  imageBytes : String → Option String
  contentText : String → String
  jitter : Nat → ℚ

/-- The `CycleResult` bundle returned by one cycle.  `cuttingList` holds
whatever `JSON.parse` produced — the source casts it unchecked. -/
structure CycleResult where
  imageViews : Option (List ImageView)
  sketchUrl : Option String
  cuttingList : Option Json
  detailedDescription : String
deriving Repr

/-- One cycle's observable outcome plus the prompts it issued to the
image endpoint and to the text endpoint, in issue order. -/
structure CycleTrace where
  result : Except JsValue CycleResult
  imagePrompts : List String
  contentPrompts : List String
deriving Repr

/-- The `imagePromiseFactories` array: one deferred, retry-wrapped
`generateImages` call per viewpoint, then the sketch call, each mapped
to its tagged result. -/
def imageFactories (env : GenAiEnv) (detailedDescription : String) :
    List (DeferredOp JsValue ImageResult) :=
  (VIEWS.map fun view =>
    ({ time := env.imageTime (viewPrompt detailedDescription view),
       result :=
         (callApiWithRetry
           (fun _ => Except.ok
             (env.imageBytes (viewPrompt detailedDescription view)))
           env.jitter 3 1000).result.map
           fun b => ImageResult.view view b } : DeferredOp JsValue ImageResult))
  ++ [{ time := env.imageTime (sketchPrompt detailedDescription),
        result :=
          (callApiWithRetry
            (fun _ => Except.ok
              (env.imageBytes (sketchPrompt detailedDescription)))
            env.jitter 3 1000).result.map
            fun b => ImageResult.sketch b }]

/-- Result-processing tail of `generateAssetsFromDescription`, applied
to the batched image results and the structured response text: keep the
`view`-tagged results with a truthy (non-null, non-empty) payload as
displayable references, take the first `sketch`-tagged result's payload,
and `JSON.parse` the trimmed response text when it is truthy, a parse
failure degrading to `none`. -/
def assembleCycle (allImageResults : List ImageResult) (respText : String)
    (detailedDescription : String) : CycleResult :=
  let imageViews : List ImageView := allImageResults.filterMap fun r =>
    match r with
    | ImageResult.view label (some b) =>
        if b = "" then none
        else some ⟨label, "data:image/jpeg;base64," ++ b⟩
    | _ => none
  let sketchResult := allImageResults.find? fun r =>
    match r with
    | ImageResult.sketch _ => true
    | _ => false
  let sketchUrl : Option String :=
    match sketchResult with
    | some (ImageResult.sketch (some b)) =>
        if b = "" then none else some ("data:image/jpeg;base64," ++ b)
    | _ => none
  let jsonText := jsTrim respText
  { imageViews := if imageViews.length > 0 then some imageViews else none,
    sketchUrl := sketchUrl,
    cuttingList := if jsonText = "" then none else jsonParse jsonText,
    detailedDescription := detailedDescription }

/-- `generateAssetsFromDescription`: run the 6 image factories through
the batch runner with batch size 3, the structured cutting-list call
through the retry wrapper, then assemble the `CycleResult`. -/
def generateAssetsFromDescription (env : GenAiEnv)
    (detailedDescription : String) : CycleTrace :=
  let batch := runPromisesInBatches (imageFactories env detailedDescription) 3
  let cuttingTrace := callApiWithRetry
    (fun _ => Except.ok (env.contentText (cuttingContents detailedDescription)))
    env.jitter 3 1000
  let res : Except JsValue CycleResult :=
    match batch.1, cuttingTrace.result with
    | Except.error e, _ => Except.error e
    | Except.ok _, Except.error e => Except.error e
    | Except.ok allImageResults, Except.ok respText =>
        Except.ok (assembleCycle allImageResults respText detailedDescription)
  { result := res,
    imagePrompts :=
      VIEWS.map (viewPrompt detailedDescription) ++
        [sketchPrompt detailedDescription],
    contentPrompts := [cuttingContents detailedDescription] }

/-- `generateHouseDesign(prompt)`: one retried description-generation
call; an empty-after-trim response text raises the hard failure before
any asset work; otherwise delegate to `generateAssetsFromDescription`. -/
def generateHouseDesign (env : GenAiEnv) (prompt : String) : CycleTrace :=
  let respTrace := callApiWithRetry
    (fun _ => Except.ok (env.contentText (descriptionContents prompt)))
    env.jitter 3 1000
  match respTrace.result with
  | Except.error e =>
      { result := Except.error e, imagePrompts := [],
        contentPrompts := [descriptionContents prompt] }
  | Except.ok text =>
    let detailedDescription := jsTrim text
    if detailedDescription = "" then
      { result := Except.error (JsValue.error
          "Could not generate a detailed description for the house."),
        imagePrompts := [],
        contentPrompts := [descriptionContents prompt] }
    else
      let a := generateAssetsFromDescription env detailedDescription
      { result := a.result, imagePrompts := a.imagePrompts,
        contentPrompts := descriptionContents prompt :: a.contentPrompts }

/-- `editHouseDesign(originalDescription, edits)`: build the edit
instruction, run one retried description-regeneration call, apply the
same empty-text hard failure, then delegate to
`generateAssetsFromDescription`. -/
def editHouseDesign (env : GenAiEnv) (originalDescription : String)
    (edits : EditPreferences) : CycleTrace :=
  let editPrompt := buildEditPrompt originalDescription edits
  let respTrace := callApiWithRetry
    (fun _ => Except.ok (env.contentText editPrompt)) env.jitter 3 1000
  match respTrace.result with
  | Except.error e =>
      { result := Except.error e, imagePrompts := [],
        contentPrompts := [editPrompt] }
  | Except.ok text =>
    let newDetailedDescription := jsTrim text
    if newDetailedDescription = "" then
      { result := Except.error (JsValue.error
          "Could not generate an updated description for the house."),
        imagePrompts := [],
        contentPrompts := [editPrompt] }
    else
      let a := generateAssetsFromDescription env newDetailedDescription
      { result := a.result, imagePrompts := a.imagePrompts,
        contentPrompts := editPrompt :: a.contentPrompts }

/-- If the attempt at index `att` fails and is not classified as
rate-limited, the loop stops there: the failure is rethrown unchanged,
`att + 1` total calls, no delay — for every fuel, attempt cap and
initial delay. -/
theorem callApiLoop_err_stop {T : Type} (apiCall : Nat → Except JsValue T)
    (jitter : Nat → ℚ) (initialDelay : ℚ) (maxRetries fuel att : Nat)
    (e : JsValue) (h1 : apiCall att = Except.error e)
    (h2 : isRateLimitError e = false) :
    callApiLoop apiCall jitter initialDelay maxRetries fuel att =
      ⟨Except.error e, att + 1, []⟩ := by
  unfold callApiLoop
  rw [h1]
  simp [h2]

/-- C5: an operation that always fails with a failure the classifier
does not mark as rate-limited makes exactly one attempt; the failure
value propagates unchanged and no delay is slept — for any `maxRetries`
and `initialDelay`. -/
theorem claim_C5_non_rate_limit_single_attempt {T : Type}
    (apiCall : Nat → Except JsValue T) (jitter : Nat → ℚ)
    (maxRetries : Nat) (initialDelay : ℚ) (e : JsValue)
    (h1 : ∀ n, apiCall n = Except.error e)
    (h2 : isRateLimitError e = false) :
    callApiWithRetry apiCall jitter maxRetries initialDelay =
      ⟨Except.error e, 1, []⟩ := by
  unfold callApiWithRetry
  exact callApiLoop_err_stop apiCall jitter initialDelay maxRetries
    maxRetries 0 e (h1 0) h2

/-- Witness for C5 at a concrete operation: `"boom"` is not
rate-limit-classified and propagates on the first attempt. -/
theorem claim_C5_witness :
    isRateLimitError (JsValue.error "boom") = false ∧
    callApiWithRetry
        (fun _ => (Except.error (JsValue.error "boom") : Except JsValue Nat))
        (fun _ => 0) 3 1000 =
      ⟨Except.error (JsValue.error "boom"), 1, []⟩ :=
  ⟨by decide,
    claim_C5_non_rate_limit_single_attempt _ _ 3 1000 (JsValue.error "boom")
      (fun _ => rfl) (by decide)⟩

/-- C10: a thrown value that is not an `Error` instance is never
classified as rate-limited, whatever its content; hence the retry
wrapper propagates such a rejection on the first attempt with no retry
and no delay, for every `maxRetries` and `initialDelay`. -/
theorem claim_C10_non_error_never_retried {T : Type} (content : String)
    (apiCall : Nat → Except JsValue T) (jitter : Nat → ℚ)
    (maxRetries : Nat) (initialDelay : ℚ) :
    isRateLimitError (JsValue.nonError content) = false ∧
    (apiCall 0 = Except.error (JsValue.nonError content) →
      callApiWithRetry apiCall jitter maxRetries initialDelay =
        ⟨Except.error (JsValue.nonError content), 1, []⟩) := by
  refine ⟨rfl, fun h1 => ?_⟩
  unfold callApiWithRetry
  exact callApiLoop_err_stop apiCall jitter initialDelay maxRetries
    maxRetries 0 _ h1 rfl

/-- Witness for C10: a non-`Error` rejection whose content even spells
out the rate-limit keywords is still not retried. -/
theorem claim_C10_witness :
    isRateLimitError (JsValue.nonError "quota rate limit 429") = false ∧
    callApiWithRetry
        (fun _ => (Except.error (JsValue.nonError "quota rate limit 429") :
          Except JsValue Nat))
        (fun _ => 0) 5 2000 =
      ⟨Except.error (JsValue.nonError "quota rate limit 429"), 1, []⟩ :=
  ⟨(claim_C10_non_error_never_retried "quota rate limit 429"
      (fun _ => (Except.error (JsValue.nonError "quota rate limit 429") :
        Except JsValue Nat)) (fun _ => 0) 5 2000).1,
   (claim_C10_non_error_never_retried "quota rate limit 429"
      (fun _ => (Except.error (JsValue.nonError "quota rate limit 429") :
        Except JsValue Nat)) (fun _ => 0) 5 2000).2 rfl⟩

theorem callApiLoop_rate_limited_then_ok {T : Type}
    (apiCall : Nat → Except JsValue T) (jitter : Nat → ℚ)
    (initialDelay : ℚ) (m : Nat) (v : T)
    (hfail : ∀ i, i < m - 1 →
      ∃ e, apiCall i = Except.error e ∧ isRateLimitError e = true)
    (hok : apiCall (m - 1) = Except.ok v) :
    ∀ fuel att, att < m → m - 1 - att ≤ fuel →
    callApiLoop apiCall jitter initialDelay m fuel att =
      ⟨Except.ok v, m, (List.range (m - 1 - att)).map fun j =>
        initialDelay * 2 ^ (att + j) + jitter (att + j + 1)⟩ := by
  intro fuel
  induction fuel with
  | zero =>
    intro att hatt hfuel
    have hattm : att = m - 1 := by omega
    subst hattm
    unfold callApiLoop
    rw [hok]
    have hm : m - 1 + 1 = m := by omega
    simp [hm]
  | succ fuel ih =>
    intro att hatt hfuel
    by_cases hlast : att = m - 1
    · subst hlast
      unfold callApiLoop
      rw [hok]
      have hm : m - 1 + 1 = m := by omega
      simp [hm]
    · have hlt : att < m - 1 := by omega
      obtain ⟨e, he, hrl⟩ := hfail att hlt
      unfold callApiLoop
      rw [he]
      have hcond : (decide (att + 1 ≥ m) || !isRateLimitError e) = false := by
        simp [hrl]
        omega
      simp only [hcond, Bool.false_eq_true, if_false]
      rw [ih (att + 1) (by omega) (by omega)]
      have hrange : m - 1 - att = (m - 1 - (att + 1)) + 1 := by omega
      rw [hrange, List.range_succ_eq_map, List.map_cons, List.map_map]
      simp only [RetryTrace.mk.injEq, true_and]
      congr 1
      refine List.map_congr_left fun j hj => ?_
      have h1 : att + 1 + j = att + (j + 1) := by omega
      simp only [Function.comp_apply, Nat.succ_eq_add_one, h1]

/-- C3: if the operation fails with a rate-limit-classified failure on
every attempt before the `maxRetries`-th and succeeds on the
`maxRetries`-th, `callApiWithRetry` returns the success value
unmodified, makes exactly `maxRetries` attempts, and the delay slept
before retry `k` (1-based, list index `k-1`) is at least
`initialDelay * 2^(k-1)` and strictly below that plus 1000 ms, the
jitter being a value in `[0, 1000)` — for any `maxRetries ≥ 1` and any
`initialDelay`. -/
theorem claim_C3_rate_limited_retries_then_success {T : Type}
    (apiCall : Nat → Except JsValue T) (jitter : Nat → ℚ)
    (maxRetries : Nat) (initialDelay : ℚ) (v : T)
    (hm : 1 ≤ maxRetries)
    (hfail : ∀ i, i < maxRetries - 1 →
      ∃ e, apiCall i = Except.error e ∧ isRateLimitError e = true)
    (hok : apiCall (maxRetries - 1) = Except.ok v)
    (hjit : ∀ k, 0 ≤ jitter k ∧ jitter k < 1000) :
    (callApiWithRetry apiCall jitter maxRetries initialDelay).result =
        Except.ok v ∧
    (callApiWithRetry apiCall jitter maxRetries initialDelay).attempts =
        maxRetries ∧
    (callApiWithRetry apiCall jitter maxRetries initialDelay).delays.length =
        maxRetries - 1 ∧
    ∀ k (hk : k <
        (callApiWithRetry apiCall jitter maxRetries initialDelay).delays.length),
      initialDelay * 2 ^ k ≤
          (callApiWithRetry apiCall jitter maxRetries
            initialDelay).delays.get ⟨k, hk⟩ ∧
        (callApiWithRetry apiCall jitter maxRetries
            initialDelay).delays.get ⟨k, hk⟩ <
          initialDelay * 2 ^ k + 1000 := by
  have h := callApiLoop_rate_limited_then_ok apiCall jitter initialDelay
    maxRetries v hfail hok maxRetries 0 (by omega) (by omega)
  unfold callApiWithRetry
  rw [h]
  refine ⟨rfl, rfl, by simp, fun k hk => ?_⟩
  simp only [List.get_eq_getElem, List.getElem_map, List.getElem_range,
    Nat.zero_add]
  obtain ⟨hj0, hj1⟩ := hjit (k + 1)
  constructor
  · linarith
  · linarith

/-- Witness for C3 at `maxRetries = 3`: two 429 failures, then success
with value 7; three attempts, two delays within the claimed windows. -/
theorem claim_C3_witness :
    1 ≤ 3 ∧ (0 : ℚ) ≤ 5 ∧ (5 : ℚ) < 1000 ∧
    ((callApiWithRetry
        (fun n => if n < 2 then Except.error (JsValue.error "http 429")
                  else Except.ok 7)
        (fun _ => 5) 3 1000).result = Except.ok 7 ∧
      (callApiWithRetry
        (fun n => if n < 2 then Except.error (JsValue.error "http 429")
                  else Except.ok 7)
        (fun _ => 5) 3 1000).attempts = 3 ∧
      (callApiWithRetry
        (fun n => if n < 2 then Except.error (JsValue.error "http 429")
                  else Except.ok 7)
        (fun _ => 5) 3 1000).delays.length = 3 - 1 ∧
      ∀ k (hk : k < (callApiWithRetry
          (fun n => if n < 2 then Except.error (JsValue.error "http 429")
                    else Except.ok 7)
          (fun _ => 5) 3 1000).delays.length),
        (1000 : ℚ) * 2 ^ k ≤ (callApiWithRetry
            (fun n => if n < 2 then Except.error (JsValue.error "http 429")
                      else Except.ok 7)
            (fun _ => 5) 3 1000).delays.get ⟨k, hk⟩ ∧
          (callApiWithRetry
            (fun n => if n < 2 then Except.error (JsValue.error "http 429")
                      else Except.ok 7)
            (fun _ => 5) 3 1000).delays.get ⟨k, hk⟩ <
            (1000 : ℚ) * 2 ^ k + 1000) :=
  ⟨by norm_num, by norm_num, by norm_num,
    claim_C3_rate_limited_retries_then_success
      (fun n => if n < 2 then Except.error (JsValue.error "http 429")
                else Except.ok 7)
      (fun _ => 5) 3 1000 7 (by norm_num)
      (fun i hi => ⟨JsValue.error "http 429", by
        have : i < 2 := by omega
        simp [this], by decide⟩)
      rfl (fun k => by norm_num)⟩

/-- If every operation in the list succeeds, no rejection exists. -/
theorem firstRejection_none_of_ok {E T : Type} :
    ∀ (l : List (DeferredOp E T)),
    (∀ i (hi : i < l.length), ∃ v, (l.get ⟨i, hi⟩).result = Except.ok v) →
    firstRejection l = none := by
  intro l
  induction l with
  | nil => intro _; rfl
  | cons op rest ih =>
    intro h
    obtain ⟨v, hv⟩ := h 0 (by simp)
    have hrest := ih fun i hi => h (i + 1) (by simpa using Nat.succ_lt_succ hi)
    unfold firstRejection
    have hv' : op.result = Except.ok v := hv
    rw [hv', hrest]

/-- If every operation in the list succeeds, `Promise.all` resolves with
the extracted values, in input order. -/
theorem promiseAll_ok {E T : Type} (l : List (DeferredOp E T))
    (h : ∀ i (hi : i < l.length), ∃ v, (l.get ⟨i, hi⟩).result = Except.ok v) :
    promiseAll l = Except.ok (l.filterMap fun op => op.result.toOption) := by
  unfold promiseAll
  rw [firstRejection_none_of_ok l h]

/-- On an all-success list, extracting the success values keeps the
length and the position of every element. -/
theorem filterMap_allOk {E T : Type} :
    ∀ (l : List (DeferredOp E T)),
    (∀ i (hi : i < l.length), ∃ v, (l.get ⟨i, hi⟩).result = Except.ok v) →
    (l.filterMap fun op => op.result.toOption).length = l.length ∧
    ∀ i (hi : i < l.length)
      (hv : i < (l.filterMap fun op => op.result.toOption).length),
      (l.get ⟨i, hi⟩).result =
        Except.ok ((l.filterMap fun op => op.result.toOption).get ⟨i, hv⟩) := by
  intro l
  induction l with
  | nil =>
    intro _
    refine ⟨rfl, fun i hi hv => ?_⟩
    simp at hi
  | cons op rest ih =>
    intro h
    obtain ⟨v, hv⟩ := h 0 (by simp)
    obtain ⟨ihlen, ihget⟩ :=
      ih fun i hi => h (i + 1) (by simpa using Nat.succ_lt_succ hi)
    have hv' : op.result = Except.ok v := hv
    have hcons : ((op :: rest).filterMap fun op => op.result.toOption) =
        v :: (rest.filterMap fun op => op.result.toOption) := by
      rw [List.filterMap_cons]
      simp only [hv']
      rfl
    refine ⟨by simp [hcons, ihlen], fun i hi hvlen => ?_⟩
    match i with
    | 0 => simpa [hcons] using hv'
    | i + 1 =>
      have h1 : i < rest.length := by simpa using hi
      have h2 : i < (rest.filterMap fun op => op.result.toOption).length := by
        simp [hcons] at hvlen
        omega
      simpa [hcons] using ihget i h1 h2

/-- All-success run of the batch loop: with fuel covering the list and a
positive batch size, it returns all extracted values in input order and
starts every operation. -/
theorem runBatchedLoop_allOk {E T : Type} (batchSize : Nat)
    (hbs : 1 ≤ batchSize) :
    ∀ fuel (ops : List (DeferredOp E T)), ops.length ≤ fuel →
    (∀ i (hi : i < ops.length), ∃ v, (ops.get ⟨i, hi⟩).result = Except.ok v) →
    runBatchedLoop batchSize fuel ops =
      (Except.ok (ops.filterMap fun op => op.result.toOption), ops.length) := by
  intro fuel
  induction fuel with
  | zero =>
    intro ops hlen h
    cases ops with
    | nil => rfl
    | cons op rest => simp at hlen
  | succ fuel ih =>
    intro ops hlen h
    cases ops with
    | nil => rfl
    | cons op rest =>
      have hchunk : ∀ i (hi : i < ((op :: rest).take batchSize).length),
          ∃ v, (((op :: rest).take batchSize).get ⟨i, hi⟩).result =
            Except.ok v := by
        intro i hi
        have hi2 : i < (op :: rest).length := by
          rw [List.length_take] at hi
          omega
        obtain ⟨v, hv⟩ := h i hi2
        refine ⟨v, ?_⟩
        simpa [List.get_eq_getElem, List.getElem_take] using hv
      have hlater : ∀ i (hi : i < ((op :: rest).drop batchSize).length),
          ∃ v, (((op :: rest).drop batchSize).get ⟨i, hi⟩).result =
            Except.ok v := by
        intro i hi
        have hi2 : batchSize + i < (op :: rest).length := by
          rw [List.length_drop] at hi
          omega
        obtain ⟨v, hv⟩ := h (batchSize + i) hi2
        refine ⟨v, ?_⟩
        simpa [List.get_eq_getElem, List.getElem_drop] using hv
      have hlen2 : ((op :: rest).drop batchSize).length ≤ fuel := by
        rw [List.length_drop]
        simp only [List.length_cons] at hlen ⊢
        omega
      have hrec := ih ((op :: rest).drop batchSize) hlen2 hlater
      simp only [runBatchedLoop]
      rw [promiseAll_ok _ hchunk, hrec]
      simp only [Except.map]
      rw [← List.filterMap_append, List.take_append_drop]
      have hcount : ((op :: rest).take batchSize).length +
          ((op :: rest).drop batchSize).length = (op :: rest).length := by
        rw [List.length_take, List.length_drop]
        simp only [List.length_cons]
        omega
      rw [hcount]

/-- C4: when every deferred operation succeeds, `runPromisesInBatches`
with any `batchSize ≥ 1` resolves with one result per operation, the
result at each index being the value of the operation at that index —
the output is a pure function of the outcome values, independent of the
completion times. -/
theorem claim_C4_batches_preserve_order {E T : Type}
    (ops : List (DeferredOp E T)) (batchSize : Nat) (hbs : 1 ≤ batchSize)
    (h : ∀ i (hi : i < ops.length), ∃ v, (ops.get ⟨i, hi⟩).result =
      Except.ok v) :
    ∃ vs : List T,
      (runPromisesInBatches ops batchSize).1 = Except.ok vs ∧
      vs = ops.filterMap (fun op => op.result.toOption) ∧
      vs.length = ops.length ∧
      ∀ i (hi : i < ops.length) (hv : i < vs.length),
        (ops.get ⟨i, hi⟩).result = Except.ok (vs.get ⟨i, hv⟩) := by
  obtain ⟨hlen, hget⟩ := filterMap_allOk ops h
  refine ⟨ops.filterMap fun op => op.result.toOption, ?_, rfl, hlen, hget⟩
  unfold runPromisesInBatches
  rw [runBatchedLoop_allOk batchSize hbs ops.length ops le_rfl h]

/-- Witness for C4: four operations, batch size 3, deliberately
scrambled completion times; outputs come back in input order. -/
theorem claim_C4_witness :
    1 ≤ 3 ∧
    (∃ vs : List Nat,
      (runPromisesInBatches
        [(⟨9, Except.ok 1⟩ : DeferredOp String Nat), ⟨0, Except.ok 2⟩,
          ⟨4, Except.ok 3⟩, ⟨2, Except.ok 4⟩] 3).1 = Except.ok vs ∧
      vs = [(⟨9, Except.ok 1⟩ : DeferredOp String Nat), ⟨0, Except.ok 2⟩,
          ⟨4, Except.ok 3⟩, ⟨2, Except.ok 4⟩].filterMap
          (fun op => op.result.toOption) ∧
      vs.length = [(⟨9, Except.ok 1⟩ : DeferredOp String Nat),
          ⟨0, Except.ok 2⟩, ⟨4, Except.ok 3⟩, ⟨2, Except.ok 4⟩].length ∧
      ∀ i (hi : i < [(⟨9, Except.ok 1⟩ : DeferredOp String Nat),
          ⟨0, Except.ok 2⟩, ⟨4, Except.ok 3⟩, ⟨2, Except.ok 4⟩].length)
        (hv : i < vs.length),
        ([(⟨9, Except.ok 1⟩ : DeferredOp String Nat), ⟨0, Except.ok 2⟩,
          ⟨4, Except.ok 3⟩, ⟨2, Except.ok 4⟩].get ⟨i, hi⟩).result =
          Except.ok (vs.get ⟨i, hv⟩)) :=
  ⟨by norm_num,
    claim_C4_batches_preserve_order
      [(⟨9, Except.ok 1⟩ : DeferredOp String Nat), ⟨0, Except.ok 2⟩,
        ⟨4, Except.ok 3⟩, ⟨2, Except.ok 4⟩] 3 (by norm_num)
      (fun i hi => by
        match i with
        | 0 => exact ⟨1, rfl⟩
        | 1 => exact ⟨2, rfl⟩
        | 2 => exact ⟨3, rfl⟩
        | 3 => exact ⟨4, rfl⟩
        | n + 4 => simp at hi)⟩

/-- With exactly one rejecting operation, that rejection is the one
`Promise.all` adopts, whatever the completion times. -/
theorem firstRejection_unique {E T : Type} :
    ∀ (l : List (DeferredOp E T)) (j : Nat) (hj : j < l.length) (e : E),
    (l.get ⟨j, hj⟩).result = Except.error e →
    (∀ i (hi : i < l.length), i ≠ j → ∃ v, (l.get ⟨i, hi⟩).result =
      Except.ok v) →
    firstRejection l = some ((l.get ⟨j, hj⟩).time, e) := by
  intro l
  induction l with
  | nil => intro j hj; simp at hj
  | cons op rest ih =>
    intro j hj e herr hok
    match j, hj with
    | 0, _ =>
      have herr' : op.result = Except.error e := herr
      have hrest : firstRejection rest = none := by
        refine firstRejection_none_of_ok rest fun i hi => ?_
        exact hok (i + 1) (by simpa using Nat.succ_lt_succ hi) (by omega)
      unfold firstRejection
      rw [herr', hrest]
      rfl
    | j' + 1, hj =>
      obtain ⟨v, hv⟩ := hok 0 (by simp) (by omega)
      have hv' : op.result = Except.ok v := hv
      have hj' : j' < rest.length := by simpa using hj
      have hrec := ih j' hj' e herr fun i hi hne =>
        hok (i + 1) (by simpa using Nat.succ_lt_succ hi) (by omega)
      unfold firstRejection
      rw [hv', hrec]
      rfl

/-- With exactly one rejecting operation, `Promise.all` rejects with
that operation's failure. -/
theorem promiseAll_unique_error {E T : Type} (l : List (DeferredOp E T))
    (j : Nat) (hj : j < l.length) (e : E)
    (herr : (l.get ⟨j, hj⟩).result = Except.error e)
    (hok : ∀ i (hi : i < l.length), i ≠ j → ∃ v, (l.get ⟨i, hi⟩).result =
      Except.ok v) :
    promiseAll l = Except.error e := by
  unfold promiseAll
  rw [firstRejection_unique l j hj e herr hok]

/-- Unique-failure run of the batch loop: the loop rejects with that
failure, and the operations started are exactly those up to the end of
the failing chunk. -/
theorem runBatchedLoop_unique_error {E T : Type} (batchSize : Nat)
    (hbs : 1 ≤ batchSize) :
    ∀ fuel (ops : List (DeferredOp E T)) (j : Nat) (hj : j < ops.length)
      (e : E), ops.length ≤ fuel →
    (ops.get ⟨j, hj⟩).result = Except.error e →
    (∀ i (hi : i < ops.length), i ≠ j → ∃ v, (ops.get ⟨i, hi⟩).result =
      Except.ok v) →
    runBatchedLoop batchSize fuel ops =
      (Except.error e, min ops.length ((j / batchSize + 1) * batchSize)) := by
  intro fuel
  induction fuel with
  | zero =>
    intro ops j hj e hlen herr hok
    cases ops with
    | nil => simp at hj
    | cons op rest => simp at hlen
  | succ fuel ih =>
    intro ops j hj e hlen herr hok
    cases ops with
    | nil => simp at hj
    | cons op rest =>
      by_cases hjc : j < batchSize
      · -- the failure sits in the first chunk
        have hjchunk : j < ((op :: rest).take batchSize).length := by
          rw [List.length_take]
          omega
        have herrc : (((op :: rest).take batchSize).get ⟨j, hjchunk⟩).result =
            Except.error e := by
          simpa [List.get_eq_getElem, List.getElem_take] using herr
        have hokc : ∀ i (hi : i < ((op :: rest).take batchSize).length),
            i ≠ j → ∃ v, (((op :: rest).take batchSize).get ⟨i, hi⟩).result =
              Except.ok v := by
          intro i hi hne
          have hi2 : i < (op :: rest).length := by
            rw [List.length_take] at hi
            omega
          obtain ⟨v, hv⟩ := hok i hi2 hne
          refine ⟨v, ?_⟩
          simpa [List.get_eq_getElem, List.getElem_take] using hv
        simp only [runBatchedLoop]
        rw [promiseAll_unique_error _ j hjchunk e herrc hokc]
        have hdiv : j / batchSize = 0 := Nat.div_eq_of_lt hjc
        rw [hdiv, List.length_take]
        simp only [List.length_cons]
        rw [Nat.one_mul, Nat.min_comm]
      · -- the first chunk is clean; recurse on the tail
        push_neg at hjc
        have hlenc : (op :: rest).length = rest.length + 1 := by simp
        have hchunk : ∀ i (hi : i < ((op :: rest).take batchSize).length),
            ∃ v, (((op :: rest).take batchSize).get ⟨i, hi⟩).result =
              Except.ok v := by
          intro i hi
          have hi2 : i < (op :: rest).length := by
            rw [List.length_take] at hi
            omega
          have hine : i ≠ j := by
            rw [List.length_take] at hi
            omega
          obtain ⟨v, hv⟩ := hok i hi2 hine
          refine ⟨v, ?_⟩
          simpa [List.get_eq_getElem, List.getElem_take] using hv
        have hjl : j - batchSize < ((op :: rest).drop batchSize).length := by
          rw [List.length_drop]
          omega
        have herrl : (((op :: rest).drop batchSize).get
            ⟨j - batchSize, hjl⟩).result = Except.error e := by
          have hcomb : batchSize + (j - batchSize) = j := by omega
          simp only [List.get_eq_getElem, List.getElem_drop, hcomb]
          simpa [List.get_eq_getElem] using herr
        have hokl : ∀ i (hi : i < ((op :: rest).drop batchSize).length),
            i ≠ j - batchSize →
            ∃ v, (((op :: rest).drop batchSize).get ⟨i, hi⟩).result =
              Except.ok v := by
          intro i hi hne
          have hi2 : batchSize + i < (op :: rest).length := by
            rw [List.length_drop] at hi
            omega
          obtain ⟨v, hv⟩ := hok (batchSize + i) hi2 (by omega)
          refine ⟨v, ?_⟩
          simpa [List.get_eq_getElem, List.getElem_drop] using hv
        have hlen2 : ((op :: rest).drop batchSize).length ≤ fuel := by
          rw [List.length_drop]
          simp only [List.length_cons] at hlen ⊢
          omega
        have hrec := ih ((op :: rest).drop batchSize) (j - batchSize) hjl e
          hlen2 herrl hokl
        simp only [runBatchedLoop]
        rw [promiseAll_ok _ hchunk, hrec]
        simp only [Except.map]
        have hdiv : j / batchSize = (j - batchSize) / batchSize + 1 :=
          Nat.div_eq_sub_div (by omega) hjc
        rw [hdiv, List.length_take, List.length_drop]
        have hx : ((j - batchSize) / batchSize + 1 + 1) * batchSize =
            ((j - batchSize) / batchSize + 1) * batchSize + batchSize := by
          ring
        simp only [List.length_cons] at hlen hj ⊢
        simp only [Prod.mk.injEq, true_and]
        omega

/-- C6: if exactly one deferred operation fails, the whole
`runPromisesInBatches` call fails with that operation's failure — no
partial result list is returned — and the operations started are only
those through the end of the failing chunk: nothing in any later chunk
is ever started. -/
theorem claim_C6_chunk_failure_aborts {E T : Type}
    (ops : List (DeferredOp E T)) (batchSize : Nat) (hbs : 1 ≤ batchSize)
    (j : Nat) (hj : j < ops.length) (e : E)
    (herr : (ops.get ⟨j, hj⟩).result = Except.error e)
    (hok : ∀ i (hi : i < ops.length), i ≠ j →
      ∃ v, (ops.get ⟨i, hi⟩).result = Except.ok v) :
    (runPromisesInBatches ops batchSize).1 = Except.error e ∧
    (runPromisesInBatches ops batchSize).2 =
      min ops.length ((j / batchSize + 1) * batchSize) ∧
    (runPromisesInBatches ops batchSize).2 ≤
      (j / batchSize + 1) * batchSize := by
  have h := runBatchedLoop_unique_error batchSize hbs ops.length ops j hj e
    le_rfl herr hok
  unfold runPromisesInBatches
  rw [h]
  exact ⟨rfl, rfl, Nat.min_le_right _ _⟩

/-- Witness for C6: the second of four operations fails; the run rejects
with that failure after starting only the first chunk of three. -/
theorem claim_C6_witness :
    1 ≤ 3 ∧
    ((runPromisesInBatches
        [(⟨9, Except.ok 1⟩ : DeferredOp String Nat), ⟨0, Except.error "x"⟩,
          ⟨4, Except.ok 3⟩, ⟨2, Except.ok 4⟩] 3).1 = Except.error "x" ∧
      (runPromisesInBatches
        [(⟨9, Except.ok 1⟩ : DeferredOp String Nat), ⟨0, Except.error "x"⟩,
          ⟨4, Except.ok 3⟩, ⟨2, Except.ok 4⟩] 3).2 =
        min [(⟨9, Except.ok 1⟩ : DeferredOp String Nat),
          ⟨0, Except.error "x"⟩, ⟨4, Except.ok 3⟩,
          ⟨2, Except.ok 4⟩].length ((1 / 3 + 1) * 3) ∧
      (runPromisesInBatches
        [(⟨9, Except.ok 1⟩ : DeferredOp String Nat), ⟨0, Except.error "x"⟩,
          ⟨4, Except.ok 3⟩, ⟨2, Except.ok 4⟩] 3).2 ≤ (1 / 3 + 1) * 3) :=
  ⟨by norm_num,
    claim_C6_chunk_failure_aborts
      [(⟨9, Except.ok 1⟩ : DeferredOp String Nat), ⟨0, Except.error "x"⟩,
        ⟨4, Except.ok 3⟩, ⟨2, Except.ok 4⟩] 3 (by norm_num) 1 (by norm_num)
      "x" rfl
      (fun i hi hne => by
        match i with
        | 0 => exact ⟨1, rfl⟩
        | 1 => exact absurd rfl hne
        | 2 => exact ⟨3, rfl⟩
        | 3 => exact ⟨4, rfl⟩
        | n + 4 => simp at hi)⟩

/-- The image results one cycle feeds into the assembly step: the five
tagged view payloads in `VIEWS` order, then the sketch payload. -/
def cycleImageResults (env : GenAiEnv) (detailedDescription : String) :
    List ImageResult :=
  [ImageResult.view "Front view"
      (env.imageBytes (viewPrompt detailedDescription "Front view")),
   ImageResult.view "Back view"
      (env.imageBytes (viewPrompt detailedDescription "Back view")),
   ImageResult.view "Left side view"
      (env.imageBytes (viewPrompt detailedDescription "Left side view")),
   ImageResult.view "Right side view"
      (env.imageBytes (viewPrompt detailedDescription "Right side view")),
   ImageResult.view "Top-down view"
      (env.imageBytes (viewPrompt detailedDescription "Top-down view")),
   ImageResult.sketch (env.imageBytes (sketchPrompt detailedDescription))]

/-- In this all-success environment, a cycle always resolves: batching
the six image calls yields exactly the tagged payloads in viewpoint
order, and the result is their assembly with the structured response
text. -/
theorem generateAssets_result (env : GenAiEnv) (detailedDescription : String) :
    (generateAssetsFromDescription env detailedDescription).result =
      Except.ok (assembleCycle (cycleImageResults env detailedDescription)
        (env.contentText (cuttingContents detailedDescription))
        detailedDescription) := rfl

/-- Displayable data-URI reference for an image payload. -/
def dataUri (b : String) : String := "data:image/jpeg;base64," ++ b

/-- The displayable reference a view payload yields: kept only when the
payload is truthy (non-null and non-empty). -/
def viewRef (v : String) (o : Option String) : Option ImageView :=
  match o with
  | some b => if b = "" then none else some ⟨v, dataUri b⟩
  | none => none

/-- The sketch reference: the payload when truthy, else `none`. -/
def sketchRef (o : Option String) : Option String :=
  match o with
  | some b => if b = "" then none else some (dataUri b)
  | none => none

/-- JS truthiness of an optional image payload. -/
def truthy (o : Option String) : Bool :=
  match o with
  | some b => if b = "" then false else true
  | none => false

set_option maxHeartbeats 4000000 in
/-- Evaluating the assembly step on one cycle's tagged results: the view
list is the truthy view references in viewpoint order (`none` when
empty), and the sketch is its own payload's reference — the sketch
result never contributes a view. -/
theorem assembleCycle_eval (o1 o2 o3 o4 o5 os : Option String)
    (t d : String) :
    (assembleCycle
      [ImageResult.view "Front view" o1, ImageResult.view "Back view" o2,
       ImageResult.view "Left side view" o3,
       ImageResult.view "Right side view" o4,
       ImageResult.view "Top-down view" o5, ImageResult.sketch os]
      t d).imageViews =
      (let l := [viewRef "Front view" o1, viewRef "Back view" o2,
        viewRef "Left side view" o3, viewRef "Right side view" o4,
        viewRef "Top-down view" o5].filterMap id
       if l.length > 0 then some l else none) ∧
    (assembleCycle
      [ImageResult.view "Front view" o1, ImageResult.view "Back view" o2,
       ImageResult.view "Left side view" o3,
       ImageResult.view "Right side view" o4,
       ImageResult.view "Top-down view" o5, ImageResult.sketch os]
      t d).sketchUrl = sketchRef os := by
  constructor
  · cases o1 <;> cases o2 <;> cases o3 <;> cases o4 <;> cases o5 <;>
      simp [assembleCycle, viewRef, dataUri] <;> split_ifs <;>
        simp_all [dataUri]
  · cases os <;> rfl

/-- C7: when the description-generation (or description-regeneration)
response text is empty after trimming, the orchestrator raises the hard
failure itself — the explicit empty-description error, not a degraded
null-field result — and no image-generation call is ever issued. -/
theorem claim_C7_empty_description_hard_failure (env : GenAiEnv)
    (prompt originalDescription : String) (edits : EditPreferences) :
    (jsTrim (env.contentText (descriptionContents prompt)) = "" →
      generateHouseDesign env prompt =
        { result := Except.error (JsValue.error
            "Could not generate a detailed description for the house."),
          imagePrompts := [],
          contentPrompts := [descriptionContents prompt] }) ∧
    (jsTrim (env.contentText (buildEditPrompt originalDescription edits)) =
        "" →
      editHouseDesign env originalDescription edits =
        { result := Except.error (JsValue.error
            "Could not generate an updated description for the house."),
          imagePrompts := [],
          contentPrompts := [buildEditPrompt originalDescription edits] }) := by
  constructor
  · intro h
    simp [generateHouseDesign, callApiWithRetry, callApiLoop, h]
  · intro h
    simp [editHouseDesign, callApiWithRetry, callApiLoop, h]

/-- Witness for C7: a whitespace-only response text trips the hard
failure in both entry points. -/
theorem claim_C7_witness :
    jsTrim "  " = "" ∧
    generateHouseDesign
        { imageTime := fun _ => 0, imageBytes := fun _ => none,
          contentText := fun _ => "  ", jitter := fun _ => 0 } "idea" =
      { result := Except.error (JsValue.error
          "Could not generate a detailed description for the house."),
        imagePrompts := [],
        contentPrompts := [descriptionContents "idea"] } ∧
    editHouseDesign
        { imageTime := fun _ => 0, imageBytes := fun _ => none,
          contentText := fun _ => "  ", jitter := fun _ => 0 } "old desc"
        ⟨"red", "", "", ""⟩ =
      { result := Except.error (JsValue.error
          "Could not generate an updated description for the house."),
        imagePrompts := [],
        contentPrompts := [buildEditPrompt "old desc" ⟨"red", "", "", ""⟩] } :=
  ⟨by decide,
    (claim_C7_empty_description_hard_failure
      { imageTime := fun _ => 0, imageBytes := fun _ => none,
        contentText := fun _ => "  ", jitter := fun _ => 0 }
      "idea" "old desc" ⟨"red", "", "", ""⟩).1 (by decide),
    (claim_C7_empty_description_hard_failure
      { imageTime := fun _ => 0, imageBytes := fun _ => none,
        contentText := fun _ => "  ", jitter := fun _ => 0 }
      "idea" "old desc" ⟨"red", "", "", ""⟩).2 (by decide)⟩

/-- C9: every remote-call prompt issued during one asset cycle — the
five view prompts, the sketch prompt and the structured cutting-list
prompt — is built from the single input description, and the resolved
`CycleResult` echoes exactly that description, so assets of two
different descriptions can never be mixed in one cycle. -/
theorem claim_C9_single_description_per_cycle (env : GenAiEnv)
    (desc : String) :
    (generateAssetsFromDescription env desc).imagePrompts =
      VIEWS.map (viewPrompt desc) ++ [sketchPrompt desc] ∧
    (generateAssetsFromDescription env desc).contentPrompts =
      [cuttingContents desc] ∧
    (∀ p ∈ (generateAssetsFromDescription env desc).imagePrompts,
      (∃ v ∈ VIEWS, p = viewPrompt desc v) ∨ p = sketchPrompt desc) ∧
    ∃ cycle, (generateAssetsFromDescription env desc).result =
        Except.ok cycle ∧ cycle.detailedDescription = desc := by
  refine ⟨rfl, rfl, ?_, _, generateAssets_result env desc, rfl⟩
  intro p hp
  simp only [generateAssetsFromDescription, VIEWS, List.map, List.cons_append,
    List.nil_append, List.mem_cons, List.not_mem_nil, or_false] at hp
  rcases hp with h | h | h | h | h | h
  · exact Or.inl ⟨"Front view", by simp [VIEWS], h⟩
  · exact Or.inl ⟨"Back view", by simp [VIEWS], h⟩
  · exact Or.inl ⟨"Left side view", by simp [VIEWS], h⟩
  · exact Or.inl ⟨"Right side view", by simp [VIEWS], h⟩
  · exact Or.inl ⟨"Top-down view", by simp [VIEWS], h⟩
  · exact Or.inr h

/-- Witness for C9 at a concrete environment and description. -/
theorem claim_C9_witness :
    (generateAssetsFromDescription
        { imageTime := fun _ => 0, imageBytes := fun _ => none,
          contentText := fun _ => "t", jitter := fun _ => 0 } "house").imagePrompts =
      VIEWS.map (viewPrompt "house") ++ [sketchPrompt "house"] ∧
    (generateAssetsFromDescription
        { imageTime := fun _ => 0, imageBytes := fun _ => none,
          contentText := fun _ => "t", jitter := fun _ => 0 } "house").contentPrompts =
      [cuttingContents "house"] ∧
    (∀ p ∈ (generateAssetsFromDescription
        { imageTime := fun _ => 0, imageBytes := fun _ => none,
          contentText := fun _ => "t", jitter := fun _ => 0 } "house").imagePrompts,
      (∃ v ∈ VIEWS, p = viewPrompt "house" v) ∨ p = sketchPrompt "house") ∧
    ∃ cycle, (generateAssetsFromDescription
        { imageTime := fun _ => 0, imageBytes := fun _ => none,
          contentText := fun _ => "t", jitter := fun _ => 0 } "house").result =
        Except.ok cycle ∧ cycle.detailedDescription = "house" :=
  claim_C9_single_description_per_cycle
    { imageTime := fun _ => 0, imageBytes := fun _ => none,
      contentText := fun _ => "t", jitter := fun _ => 0 } "house"

/-- The cutting-list field as a function of the structured response text
alone: `JSON.parse` of the trimmed text when truthy, `none` otherwise. -/
def cuttingListFromText (t : String) : Option Json :=
  if jsTrim t = "" then none else jsonParse (jsTrim t)

/-- The assembled cutting list depends only on the response text, never
on the image results. -/
theorem assembleCycle_cuttingList (imgs : List ImageResult) (t d : String) :
    (assembleCycle imgs t d).cuttingList = cuttingListFromText t := rfl

/-- Labels of the kept view references are exactly the viewpoints with
truthy payloads, in list order. -/
theorem viewRef_labels (g : String → Option String) :
    ∀ L : List String,
    (((L.map fun v => viewRef v (g v)).filterMap id).map
        fun iv => iv.label) = L.filter fun v => truthy (g v) := by
  intro L
  induction L with
  | nil => rfl
  | cons v rest ih =>
    have ih' := ih
    simp [viewRef, truthy] at ih'
    cases hg : g v with
    | none =>
      simp [viewRef, truthy, hg]
      exact ih'
    | some b =>
      by_cases hb : b = ""
      · simp [viewRef, truthy, hg, hb]
        exact ih'
      · simp [viewRef, truthy, hg, hb]
        exact ih'

/-- The view references one cycle keeps, in viewpoint order: one
reference per viewpoint whose payload is truthy. -/
def viewAssets (env : GenAiEnv) (desc : String) : List ImageView :=
  (VIEWS.map fun v => viewRef v (env.imageBytes (viewPrompt desc v))).filterMap
    id

/-- C8 (amended): if all six image/sketch payloads are null the cycle
resolves with `imageViews = none` and `sketchUrl = none` while the
cutting list is computed solely from the structured response text; in
general the kept view list holds exactly the viewpoints with truthy
(non-null **and non-empty**) payloads, in the fixed viewpoint order,
and the sketch never appears among the views. -/
theorem claim_C8_null_assets_and_view_partition (env : GenAiEnv)
    (desc : String) :
    ((∀ v ∈ VIEWS, env.imageBytes (viewPrompt desc v) = none) →
      env.imageBytes (sketchPrompt desc) = none →
      ∃ cycle, (generateAssetsFromDescription env desc).result =
          Except.ok cycle ∧
        cycle.imageViews = none ∧ cycle.sketchUrl = none ∧
        cycle.cuttingList =
          cuttingListFromText (env.contentText (cuttingContents desc))) ∧
    (∃ cycle, (generateAssetsFromDescription env desc).result =
        Except.ok cycle ∧
      cycle.cuttingList =
        cuttingListFromText (env.contentText (cuttingContents desc)) ∧
      cycle.sketchUrl = sketchRef (env.imageBytes (sketchPrompt desc)) ∧
      cycle.imageViews =
        (if (viewAssets env desc).length > 0 then some (viewAssets env desc)
         else none) ∧
      (cycle.imageViews.getD []).map (fun iv => iv.label) =
        VIEWS.filter fun v => truthy (env.imageBytes (viewPrompt desc v))) := by
  obtain ⟨hviews, hsketch⟩ := assembleCycle_eval
    (env.imageBytes (viewPrompt desc "Front view"))
    (env.imageBytes (viewPrompt desc "Back view"))
    (env.imageBytes (viewPrompt desc "Left side view"))
    (env.imageBytes (viewPrompt desc "Right side view"))
    (env.imageBytes (viewPrompt desc "Top-down view"))
    (env.imageBytes (sketchPrompt desc))
    (env.contentText (cuttingContents desc)) desc
  have hlabels := viewRef_labels
    (fun v => env.imageBytes (viewPrompt desc v)) VIEWS
  have hv : (assembleCycle (cycleImageResults env desc)
      (env.contentText (cuttingContents desc)) desc).imageViews =
      (if (viewAssets env desc).length > 0 then some (viewAssets env desc)
       else none) := hviews
  have hs : (assembleCycle (cycleImageResults env desc)
      (env.contentText (cuttingContents desc)) desc).sketchUrl =
      sketchRef (env.imageBytes (sketchPrompt desc)) := hsketch
  have hlab : ((assembleCycle (cycleImageResults env desc)
      (env.contentText (cuttingContents desc)) desc).imageViews.getD []).map
        (fun iv => iv.label) =
      VIEWS.filter fun v => truthy (env.imageBytes (viewPrompt desc v)) := by
    rw [hv]
    by_cases h0 : (viewAssets env desc).length > 0
    · rw [if_pos h0]
      exact hlabels
    · rw [if_neg h0]
      have hnil : viewAssets env desc = [] := by
        cases hc : viewAssets env desc with
        | nil => rfl
        | cons a as =>
          rw [hc] at h0
          simp at h0
      rw [← hlabels]
      show ([] : List ImageView).map (fun iv => iv.label) = _
      rw [show (VIEWS.map fun v =>
        viewRef v (env.imageBytes (viewPrompt desc v))).filterMap id =
          viewAssets env desc from rfl, hnil]
  constructor
  · intro hall hsk
    have h1 := hall "Front view" (by simp [VIEWS])
    have h2 := hall "Back view" (by simp [VIEWS])
    have h3 := hall "Left side view" (by simp [VIEWS])
    have h4 := hall "Right side view" (by simp [VIEWS])
    have h5 := hall "Top-down view" (by simp [VIEWS])
    refine ⟨_, generateAssets_result env desc, ?_, ?_, rfl⟩
    · rw [hv]
      have hnil : viewAssets env desc = [] := by
        simp [viewAssets, VIEWS, viewRef, h1, h2, h3, h4, h5]
      rw [hnil]
      rfl
    · rw [hs, hsk]
      rfl
  · exact ⟨_, generateAssets_result env desc, rfl, hs, hv, hlab⟩

/-- Environment refuting C8 as stated: every image call returns the
non-null empty-string payload. -/
def envEmptyPayload : GenAiEnv :=
  { imageTime := fun _ => 0, imageBytes := fun _ => some "",
    contentText := fun _ => "x", jitter := fun _ => 0 }

/-- Counterexample to C8 as stated: all five view payloads are non-null
(the empty string), so the claimed view list would contain all five
viewpoints — yet the cycle resolves with `imageViews = none` (and
`sketchUrl = none`), because the code tests JS truthiness, not
non-nullness. -/
theorem claim_C8_counterexample :
    (∀ v ∈ VIEWS, envEmptyPayload.imageBytes (viewPrompt "d" v) = some "") ∧
    envEmptyPayload.imageBytes (sketchPrompt "d") = some "" ∧
    (generateAssetsFromDescription envEmptyPayload "d").result =
      Except.ok
        { imageViews := none, sketchUrl := none, cuttingList := none,
          detailedDescription := "d" } :=
  ⟨fun _ _ => rfl, rfl, rfl⟩

/-- Witness for C8 at an environment with all payloads null and a
malformed structured response. -/
theorem claim_C8_witness :
    ((∀ v ∈ VIEWS, GenAiEnv.imageBytes
        { imageTime := fun _ => 0, imageBytes := fun _ => none,
          contentText := fun _ => "x", jitter := fun _ => 0 }
        (viewPrompt "d" v) = none) →
      GenAiEnv.imageBytes
        { imageTime := fun _ => 0, imageBytes := fun _ => none,
          contentText := fun _ => "x", jitter := fun _ => 0 }
        (sketchPrompt "d") = none →
      ∃ cycle, (generateAssetsFromDescription
        { imageTime := fun _ => 0, imageBytes := fun _ => none,
          contentText := fun _ => "x", jitter := fun _ => 0 } "d").result =
          Except.ok cycle ∧
        cycle.imageViews = none ∧ cycle.sketchUrl = none ∧
        cycle.cuttingList = cuttingListFromText "x") ∧
    ((∀ v ∈ VIEWS, GenAiEnv.imageBytes
        { imageTime := fun _ => 0, imageBytes := fun _ => none,
          contentText := fun _ => "x", jitter := fun _ => 0 }
        (viewPrompt "d" v) = none) ∧
      (∃ cycle, (generateAssetsFromDescription
        { imageTime := fun _ => 0, imageBytes := fun _ => none,
          contentText := fun _ => "x", jitter := fun _ => 0 } "d").result =
          Except.ok cycle ∧
        cycle.imageViews = none ∧ cycle.sketchUrl = none ∧
        cycle.cuttingList = cuttingListFromText "x")) :=
  ⟨(claim_C8_null_assets_and_view_partition
      { imageTime := fun _ => 0, imageBytes := fun _ => none,
        contentText := fun _ => "x", jitter := fun _ => 0 } "d").1,
   fun _ _ => rfl,
   (claim_C8_null_assets_and_view_partition
      { imageTime := fun _ => 0, imageBytes := fun _ => none,
        contentText := fun _ => "x", jitter := fun _ => 0 } "d").1
     (fun _ _ => rfl) rfl⟩

/-- Field lookup in a parsed JSON object. -/
def lookupField : List (String × Json) → String → Option Json
  | [], _ => none
  | (k, v) :: rest, key => if k = key then some v else lookupField rest key

/-- Is this JSON value a string? -/
def isStringJson : Json → Bool
  | Json.str _ => true
  | _ => false

/-- Is this JSON value an integer number? -/
def isIntegerNum : Json → Bool
  | Json.num m s => decide ((10 : Int) ^ s ∣ m)
  | _ => false

/-- The Material shape the claim describes: string `name`, integer
`quantity`, string `dimensions`. -/
def isMaterialJson : Json → Bool
  | Json.obj fields =>
      (match lookupField fields "name" with
        | some j => isStringJson j
        | none => false) &&
      (match lookupField fields "quantity" with
        | some j => isIntegerNum j
        | none => false) &&
      (match lookupField fields "dimensions" with
        | some j => isStringJson j
        | none => false)
  | _ => false

/-- The CuttingList shape the claim describes: string `houseName`,
string `description`, and an array of 1–5 materials. -/
def matchesCuttingListShape : Json → Bool
  | Json.obj fields =>
      (match lookupField fields "houseName" with
        | some j => isStringJson j
        | none => false) &&
      (match lookupField fields "description" with
        | some j => isStringJson j
        | none => false) &&
      (match lookupField fields "materials" with
        | some (Json.arr ms) =>
            decide (1 ≤ ms.length) && decide (ms.length ≤ 5) &&
              ms.all isMaterialJson
        | _ => false)
  | _ => false

/-- C1 (amended): the cycle never fails on the cutting-list step; the
cutting list is `none` exactly when the trimmed response text is empty
or `JSON.parse` throws, and any successfully parsed JSON value — of
whatever shape — is assigned as the cutting list unvalidated. -/
theorem claim_C1_parse_failure_degrades_to_null (env : GenAiEnv)
    (desc : String) :
    ((jsTrim (env.contentText (cuttingContents desc)) = "" ∨
        jsonParse (jsTrim (env.contentText (cuttingContents desc))) = none) →
      ∃ cycle, (generateAssetsFromDescription env desc).result =
          Except.ok cycle ∧ cycle.cuttingList = none) ∧
    (∀ j, jsonParse (jsTrim (env.contentText (cuttingContents desc))) =
        some j →
      ∃ cycle, (generateAssetsFromDescription env desc).result =
          Except.ok cycle ∧ cycle.cuttingList = some j) := by
  constructor
  · intro h
    refine ⟨_, generateAssets_result env desc, ?_⟩
    rw [assembleCycle_cuttingList]
    unfold cuttingListFromText
    rcases h with h | h
    · rw [if_pos h]
    · by_cases ht : jsTrim (env.contentText (cuttingContents desc)) = ""
      · rw [if_pos ht]
      · rw [if_neg ht]
        exact h
  · intro j hj
    refine ⟨_, generateAssets_result env desc, ?_⟩
    rw [assembleCycle_cuttingList]
    unfold cuttingListFromText
    by_cases ht : jsTrim (env.contentText (cuttingContents desc)) = ""
    · rw [ht] at hj
      have hnone : jsonParse "" = none := rfl
      rw [hnone] at hj
      cases hj
    · rw [if_neg ht]
      exact hj

/-- Environment refuting C1 as stated: the structured call returns
`"42"`, valid JSON that is not remotely of the CuttingList shape. -/
def envBareNumber : GenAiEnv :=
  { imageTime := fun _ => 0, imageBytes := fun _ => none,
    contentText := fun _ => "42", jitter := fun _ => 0 }

/-- Counterexample to C1 as stated: `"42"` parses to a JSON number that
does not match the CuttingList shape, yet the cycle's cuttingList field
is that number, not null — the code performs no schema validation after
`JSON.parse`. -/
theorem claim_C1_counterexample :
    jsonParse (jsTrim (envBareNumber.contentText (cuttingContents "d"))) =
      some (Json.num 42 0) ∧
    matchesCuttingListShape (Json.num 42 0) = false ∧
    (generateAssetsFromDescription envBareNumber "d").result =
      Except.ok
        { imageViews := none, sketchUrl := none,
          cuttingList := some (Json.num 42 0), detailedDescription := "d" } :=
  ⟨rfl, rfl, rfl⟩

/-- Witness for C1 at a malformed (non-JSON) response and at an
empty-after-trim response. -/
theorem claim_C1_witness :
    (jsonParse (jsTrim (GenAiEnv.contentText
        { imageTime := fun _ => 0, imageBytes := fun _ => none,
          contentText := fun _ => "not json", jitter := fun _ => 0 }
        (cuttingContents "d"))) = none ∧
      ∃ cycle, (generateAssetsFromDescription
          { imageTime := fun _ => 0, imageBytes := fun _ => none,
            contentText := fun _ => "not json", jitter := fun _ => 0 }
          "d").result = Except.ok cycle ∧ cycle.cuttingList = none) ∧
    (jsonParse (jsTrim (GenAiEnv.contentText envBareNumber
        (cuttingContents "d"))) = some (Json.num 42 0) ∧
      ∃ cycle, (generateAssetsFromDescription envBareNumber "d").result =
          Except.ok cycle ∧ cycle.cuttingList = some (Json.num 42 0)) :=
  ⟨⟨rfl,
    (claim_C1_parse_failure_degrades_to_null
      { imageTime := fun _ => 0, imageBytes := fun _ => none,
        contentText := fun _ => "not json", jitter := fun _ => 0 } "d").1
      (Or.inr rfl)⟩,
   ⟨rfl,
    (claim_C1_parse_failure_degrades_to_null envBareNumber "d").2
      (Json.num 42 0) rfl⟩⟩

/-- String append is associative (at the character-list level). -/
theorem strAppend_assoc (a b c : String) : a ++ b ++ c = a ++ (b ++ c) := by
  cases a with
  | mk la =>
    cases b with
    | mk lb =>
      cases c with
      | mk lc => exact congrArg String.mk (List.append_assoc la lb lc)

/-- Appending the empty string on the right is the identity. -/
theorem strAppend_right_empty (a : String) : a ++ "" = a := by
  cases a with
  | mk la => exact congrArg String.mk (List.append_nil la)

/-- Concatenation of a list of strings, in order. -/
def concatAll (l : List String) : String :=
  l.foldr (fun a b => a ++ b) ""

/-- The fixed preamble of the edit instruction: directive restating the
task, the original description verbatim in quotes, and the
`Requested Changes:` header. -/
def editBase (originalDescription : String) : String :=
  "Based on this original house description, please generate a new, complete architectural description that incorporates the following changes. Do not just list the changes, provide the full, updated description.\n\n" ++
    "Original Description: \"" ++ originalDescription ++ "\"\n\n" ++
    "Requested Changes:\n"

/-- One directive line per truthy (non-empty, untrimmed) field, in the
fixed source order. -/
def directiveLines (edits : EditPreferences) : List String :=
  (if edits.primaryColor ≠ "" then
      ["- Change the primary color to " ++ edits.primaryColor ++ ".\n"]
    else []) ++
  (if edits.secondaryColor ≠ "" then
      ["- Change the secondary color to " ++ edits.secondaryColor ++ ".\n"]
    else []) ++
  (if edits.roofMaterial ≠ "" then
      ["- Change the roof to be made of or look like " ++
        edits.roofMaterial ++ ".\n"]
    else []) ++
  (if edits.featureHighlights ≠ "" then
      ["- Also, incorporate this request: " ++ edits.featureHighlights ++
        ".\n"]
    else [])

/-- C2 (amended): the edit instruction restates the prior description
verbatim inside the fixed preamble, then appends exactly one directive
line per field that is non-empty **without trimming** (JS truthiness),
in the fixed order primary color, secondary color, roof material,
feature highlights; with all four fields empty no directive line is
appended; and the description-regeneration call is always issued with
that instruction — the edit never short-circuits. -/
theorem claim_C2_edit_prompt_synthesis (env : GenAiEnv)
    (originalDescription : String) (edits : EditPreferences) :
    buildEditPrompt originalDescription edits =
      editBase originalDescription ++ concatAll (directiveLines edits) ∧
    (edits.primaryColor = "" → edits.secondaryColor = "" →
      edits.roofMaterial = "" → edits.featureHighlights = "" →
      buildEditPrompt originalDescription edits =
        editBase originalDescription) ∧
    buildEditPrompt originalDescription edits ∈
      (editHouseDesign env originalDescription edits).contentPrompts := by
  refine ⟨?_, ?_, ?_⟩
  · simp only [buildEditPrompt, directiveLines]
    split_ifs <;>
      simp only [editBase, concatAll, List.cons_append, List.nil_append,
        List.append_nil, List.foldr_cons, List.foldr_nil, strAppend_assoc,
        strAppend_right_empty]
  · intro h1 h2 h3 h4
    simp [buildEditPrompt, editBase, h1, h2, h3, h4]
  · by_cases h : jsTrim (env.contentText
      (buildEditPrompt originalDescription edits)) = "" <;>
    simp [editHouseDesign, callApiWithRetry, callApiLoop, h]

/-- Counterexample to C2 as stated: a primary-color field consisting of
one space is empty after trimming, so per the claim it must contribute
no directive line — but the code tests raw truthiness and appends
`- Change the primary color to  .` anyway. -/
theorem claim_C2_counterexample :
    jsTrim " " = "" ∧
    buildEditPrompt "D" ⟨" ", "", "", ""⟩ =
      editBase "D" ++ "- Change the primary color to  .\n" ∧
    buildEditPrompt "D" ⟨" ", "", "", ""⟩ ≠ editBase "D" :=
  ⟨by decide, by decide, by decide⟩

/-- Witness for C2 at one non-empty field and at all-empty fields. -/
theorem claim_C2_witness :
    (buildEditPrompt "orig" ⟨"red", "", "", ""⟩ =
      editBase "orig" ++ concatAll (directiveLines ⟨"red", "", "", ""⟩) ∧
      buildEditPrompt "orig" ⟨"", "", "", ""⟩ = editBase "orig") ∧
    buildEditPrompt "orig" ⟨"red", "", "", ""⟩ ∈
      (editHouseDesign
        { imageTime := fun _ => 0, imageBytes := fun _ => none,
          contentText := fun _ => "new description", jitter := fun _ => 0 }
        "orig" ⟨"red", "", "", ""⟩).contentPrompts :=
  ⟨⟨(claim_C2_edit_prompt_synthesis
      { imageTime := fun _ => 0, imageBytes := fun _ => none,
        contentText := fun _ => "new description", jitter := fun _ => 0 }
      "orig" ⟨"red", "", "", ""⟩).1,
    (claim_C2_edit_prompt_synthesis
      { imageTime := fun _ => 0, imageBytes := fun _ => none,
        contentText := fun _ => "new description", jitter := fun _ => 0 }
      "orig" ⟨"", "", "", ""⟩).2.1 rfl rfl rfl rfl⟩,
   (claim_C2_edit_prompt_synthesis
      { imageTime := fun _ => 0, imageBytes := fun _ => none,
        contentText := fun _ => "new description", jitter := fun _ => 0 }
      "orig" ⟨"red", "", "", ""⟩).2.2⟩
